import Mathlib

/-!
# Shallow embedding of the hotmine investment/withdrawal core

This file embeds the data model and the operations of `src/hotmine`
(`models.py`, `admin.py`, `views.py`) as executable Lean definitions and
proves properties of the investment derived-metrics and of the
withdrawal-approval workflow.

Conventions of the embedding:
* Django `DecimalField` values are modelled as exact rationals `ℚ`
  (`Decimal` arithmetic is exact at the scales used here);
  `PositiveIntegerField` as `ℕ`; nullable columns as `Option`.
* `timezone.now()` is passed in explicitly as a timestamp parameter
  (`Nat` for instants, `ℤ` for an elapsed whole-day count).
* A Python property that can either return a value, return `None`, or
  raise (`TypeError` / `ZeroDivisionError` / `AttributeError` on
  missing data) is modelled as `Except Unit (Option _)`:
  `.error ()` is a raised exception, `.ok none` is `None`.
* Foreign keys irrelevant to the verified logic are modelled as plain
  identifiers (`Nat`).
-/

/-- `models.UserProfile`: one-to-one extension of the auth user with the
withdrawal gate (`withdrawal_enabled`, default `True`) and the optional
stored reason for a disabled gate. -/
structure UserProfile where
  user : Option Nat
  withdrawal_enabled : Bool := true
  withdrawal_disabled_reason : Option String := none
  phone_number : Option String := none
deriving Repr, DecidableEq

/-- `models.UserProfile.can_withdraw`: "Check if user can make withdrawals";
returns exactly the `withdrawal_enabled` flag. -/
def UserProfile.can_withdraw (p : UserProfile) : Bool :=
  p.withdrawal_enabled

/-- `models.InvestmentPlan`: admin-defined plan. All business columns are
declared `null=True` in the schema, hence the `Option`s.
`crypto_wallet` is a foreign key kept as an opaque identifier. -/
structure InvestmentPlan where
  title : Option String := none
  description : Option String := none
  minimum_deposit : Option ℚ := none
  maximum_deposit : Option ℚ := none
  daily_earnings_percentage : Option ℚ := none
  investment_duration_days : Option ℕ := none
  deposit_return : Bool := true
  crypto_wallet : Option Nat := none
  is_active : Bool := true
  sort_order : Option ℕ := some 0
deriving Repr, DecidableEq

/-- `models.InvestmentPlan.estimated_total_return`: `None` when the daily
rate, the minimum deposit or the duration is missing; otherwise
`(rate/100 * min) * days`, plus the minimum deposit when
`deposit_return` is set. -/
def InvestmentPlan.estimated_total_return (p : InvestmentPlan) : Option ℚ :=
  match p.daily_earnings_percentage, p.minimum_deposit, p.investment_duration_days with
  | some r, some m, some d =>
      let daily_return := (r / 100) * m
      let total_earnings := daily_return * (d : ℚ)
      if p.deposit_return then some (total_earnings + m) else some total_earnings
  | _, _, _ => none

/-- `models.Investment`: a user's stake. `investment_plan` is the resolved
foreign key (embedded by value: the metrics only read the referenced
plan's own fields); `status` is the raw nullable `CharField` whose
choices are `PENDING/ACTIVE/COMPLETED/CANCELLED`; `plan` and
`wallet_address` are the legacy free-text columns. -/
structure Investment where
  user : Option Nat := none
  investment_plan : Option InvestmentPlan := none
  amount : Option ℚ := none
  wallet_address_used : Option String := none
  status : Option String := some "PENDING"
  total_earnings : Option ℚ := some 0
  plan : Option String := none
  wallet_address : Option String := none
deriving Repr, DecidableEq

/-- `models.Investment.daily_earnings`: `None` when no plan is resolved or
`amount` is null; otherwise `(plan.daily_earnings_percentage / 100) * amount`,
which raises `TypeError` (`.error ()`) when the resolved plan's rate is null
(`None / 100` in the source). -/
def Investment.daily_earnings (inv : Investment) : Except Unit (Option ℚ) :=
  match inv.investment_plan, inv.amount with
  | none, _ => .ok none
  | some _, none => .ok none
  | some plan, some a =>
      match plan.daily_earnings_percentage with
      | none => .error ()
      | some r => .ok (some ((r / 100) * a))

/-- `models.Investment.expected_total_earnings`: `None` when
`daily_earnings` is `None` or no plan is resolved; otherwise
`daily_earnings * plan.investment_duration_days`, raising when the
duration is null (`Decimal * None`) or when `daily_earnings` raised. -/
def Investment.expected_total_earnings (inv : Investment) : Except Unit (Option ℚ) :=
  match inv.daily_earnings with
  | .error () => .error ()
  | .ok none => .ok none
  | .ok (some de) =>
      match inv.investment_plan with
      | none => .ok none
      | some plan =>
          match plan.investment_duration_days with
          | none => .error ()
          | some d => .ok (some (de * (d : ℚ)))

/-- `models.Investment.expected_total_return`: `None` when
`expected_total_earnings` is `None`; otherwise adds the amount back when
the resolved plan's `deposit_return` flag is set. The accesses to
`investment_plan.deposit_return` and `amount` sit after the non-`None`
guard, so the (unreachable) null combinations would raise. -/
def Investment.expected_total_return (inv : Investment) : Except Unit (Option ℚ) :=
  match inv.expected_total_earnings with
  | .error () => .error ()
  | .ok none => .ok none
  | .ok (some te) =>
      match inv.investment_plan with
      | none => .error ()
      | some plan =>
          if plan.deposit_return then
            match inv.amount with
            | none => .error ()
            | some a => .ok (some (te + a))
          else .ok (some te)

/-- `models.Investment.days_remaining`, with the calendar-day difference
`days_elapsed = (timezone.now().date() - self.date_invested.date()).days`
passed in as `e`. `None` when no plan is resolved; `0` for a `COMPLETED`
investment; otherwise `max(0, duration - days_elapsed)`, raising when the
resolved plan's duration is null (`None - int`). -/
def Investment.days_remaining (inv : Investment) (e : ℤ) : Except Unit (Option ℤ) :=
  match inv.investment_plan with
  | none => .ok none
  | some plan =>
      if inv.status = some "COMPLETED" then .ok (some 0)
      else
        match plan.investment_duration_days with
        | none => .error ()
        | some d => .ok (some (max 0 ((d : ℤ) - e)))

/-- `models.Investment.progress_percentage`, with `days_elapsed` passed in
as `e`. `None` when no plan is resolved; `100` for a `COMPLETED`
investment; otherwise `min(100, (days_elapsed / total_days) * 100)`,
raising when the resolved plan's duration is null (`int / None`) or zero
(`ZeroDivisionError`). -/
def Investment.progress_percentage (inv : Investment) (e : ℤ) : Except Unit (Option ℚ) :=
  match inv.investment_plan with
  | none => .ok none
  | some plan =>
      if inv.status = some "COMPLETED" then .ok (some 100)
      else
        match plan.investment_duration_days with
        | none => .error ()
        | some 0 => .error ()
        | some d => .ok (some (min 100 (((e : ℚ) / (d : ℚ)) * 100)))

/-- The `WITHDRAWAL_STATUS_CHOICES` enumeration of
`models.WithdrawalRequest.status`. -/
inductive WStatus where
  | pending
  | processing
  | completed
  | rejected
  | cancelled
deriving Repr, DecidableEq

/-- `models.WithdrawalRequest`. The framework-managed `created_at` and
`updated_at` audit stamps are omitted; `processed_at` is an explicit
nullable timestamp; `user` and `processed_by` are user identifiers. -/
structure WithdrawalRequest where
  user : Nat
  amount : ℚ
  withdrawal_method : String
  account_details : String
  withdrawal_note : Option String := none
  status : WStatus := WStatus.pending
  processed_at : Option Nat := none
  admin_note : Option String := none
  processed_by : Option Nat := none
  transaction_id : Option String := none
  rejection_reason : Option String := none
deriving Repr, DecidableEq

/-- Creation of a `WithdrawalRequest` row with the model's declared
defaults: `status="pending"`, all processing fields null. -/
def mkWithdrawal (user : Nat) (amount : ℚ) (method : String)
    (details : String) (note : Option String) : WithdrawalRequest :=
  { user := user, amount := amount, withdrawal_method := method,
    account_details := details, withdrawal_note := note }

/-- `models.WithdrawalRequest.can_be_cancelled`:
`self.status in ["pending", "processing"]`. -/
def WithdrawalRequest.can_be_cancelled (w : WithdrawalRequest) : Bool :=
  match w.status with
  | WStatus.pending => true
  | WStatus.processing => true
  | _ => false

/-- `models.WithdrawalRequest.mark_as_completed(processed_by, transaction_id)`
at instant `now` (`timezone.now()`): unconditionally sets
`status="completed"`, stamps `processed_at`, overwrites `processed_by`,
and overwrites `transaction_id` only when the argument is truthy
(non-`None` and non-empty). -/
def WithdrawalRequest.mark_as_completed (w : WithdrawalRequest) (now : Nat)
    (processed_by : Option Nat) (transaction_id : Option String) : WithdrawalRequest :=
  { w with
    status := WStatus.completed
    processed_at := some now
    processed_by := processed_by
    transaction_id :=
      match transaction_id with
      | some t => if t = "" then w.transaction_id else some t
      | none => w.transaction_id }

/-- `models.WithdrawalRequest.mark_as_rejected(reason, processed_by)` at
instant `now`: unconditionally sets `status="rejected"`, records the
reason, stamps `processed_at`, overwrites `processed_by`. -/
def WithdrawalRequest.mark_as_rejected (w : WithdrawalRequest) (now : Nat)
    (reason : String) (processed_by : Option Nat) : WithdrawalRequest :=
  { w with
    status := WStatus.rejected
    rejection_reason := some reason
    processed_at := some now
    processed_by := processed_by }

/-- The row predicate of the admin bulk actions' queryset filter
`status__in=["pending", "processing"]`. -/
def inPendingOrProcessing (w : WithdrawalRequest) : Bool :=
  match w.status with
  | WStatus.pending => true
  | WStatus.processing => true
  | _ => false

/-- Per-row effect of `admin.WithdrawalRequestAdmin.approve_withdrawals`'s
`queryset.filter(status__in=["pending","processing"]).update(status="completed")`
on one selected row: only the `status` column is written. -/
def approveRow (w : WithdrawalRequest) : WithdrawalRequest :=
  if inPendingOrProcessing w then { w with status := WStatus.completed } else w

/-- Per-row effect of `admin.WithdrawalRequestAdmin.reject_withdrawals`'s
`queryset.filter(status__in=["pending","processing"]).update(status="rejected")`
on one selected row: only the `status` column is written. -/
def rejectRow (w : WithdrawalRequest) : WithdrawalRequest :=
  if inPendingOrProcessing w then { w with status := WStatus.rejected } else w

/-- `admin.WithdrawalRequestAdmin.approve_withdrawals` over the selected
queryset: updates the matching rows and reports the number of rows the
`update` touched. -/
def approve_withdrawals (qs : List WithdrawalRequest) : List WithdrawalRequest × ℕ :=
  (qs.map approveRow, (qs.filter inPendingOrProcessing).length)

/-- `admin.WithdrawalRequestAdmin.reject_withdrawals` over the selected
queryset: updates the matching rows and reports the number of rows the
`update` touched. -/
def reject_withdrawals (qs : List WithdrawalRequest) : List WithdrawalRequest × ℕ :=
  (qs.map rejectRow, (qs.filter inPendingOrProcessing).length)

/-- `views.cancel_withdrawal` acting on the owner's fetched request and
the owner's balance row: refused (no field written, `False` flag) unless
`can_be_cancelled`; on success only `status := "cancelled"` is written
and the balance is untouched (the refund block is commented out in the
source). -/
def cancel_withdrawal (w : WithdrawalRequest) (bal : ℚ) :
    WithdrawalRequest × ℚ × Bool :=
  if !w.can_be_cancelled then (w, bal, false)
  else ({ w with status := WStatus.cancelled }, bal, true)

/-- The single-request workflow operations of the withdrawal state
machine, as invocable on one request: owner cancel (`views.cancel_withdrawal`),
single approve/reject (`models.mark_as_completed` / `mark_as_rejected`),
and the per-row effect of the admin bulk actions. -/
inductive WOp where
  | cancel
  | markCompleted (now : Nat) (pby : Option Nat) (tid : Option String)
  | markRejected (now : Nat) (reason : String) (pby : Option Nat)
  | bulkApprove
  | bulkReject
deriving Repr, DecidableEq

/-- Apply one workflow operation to one request. -/
def applyOp (op : WOp) (w : WithdrawalRequest) : WithdrawalRequest :=
  match op with
  | WOp.cancel => (cancel_withdrawal w 0).1
  | WOp.markCompleted now pby tid => w.mark_as_completed now pby tid
  | WOp.markRejected now r pby => w.mark_as_rejected now r pby
  | WOp.bulkApprove => approveRow w
  | WOp.bulkReject => rejectRow w

/-- Run a sequence of workflow operations left to right. -/
def runOps (ops : List WOp) (w : WithdrawalRequest) : WithdrawalRequest :=
  ops.foldl (fun w op => applyOp op w) w

/-- The spec's claimed invariant: `processed_at` is set iff the status is
`completed` or `rejected`. -/
def processedIffTerminal (w : WithdrawalRequest) : Prop :=
  w.processed_at.isSome = true ↔
    (w.status = WStatus.completed ∨ w.status = WStatus.rejected)

/-- The direction of the invariant that does hold on all reachable
states: a stamped `processed_at` implies a completed/rejected status. -/
def processedImpliesTerminal (w : WithdrawalRequest) : Prop :=
  w.processed_at.isSome = true →
    (w.status = WStatus.completed ∨ w.status = WStatus.rejected)

/-- `PolicyError` of the spec's error taxonomy: a withdrawal blocked by
the profile gate, carrying the profile's stored reason. -/
structure PolicyError where
  reason : Option String
deriving Repr, DecidableEq

/-- Modelled from the spec: the **Create** operation of the withdrawal
workflow is not present in `src` (no view or form creates a
`WithdrawalRequest`; `views.withdraw_view` only renders the page), so it
is modelled from spec §4.3/§4.4: creation requires
`withdrawal_enabled == true` on the requester's profile and is otherwise
rejected with a policy error surfacing the profile's stored reason, with
no request created; on success it captures amount, method and account
details at submission time with the model's declared initial status
`pending`. The gate (`UserProfile.can_withdraw`) and the `pending`
default come from `models.py`. -/
def create_withdrawal (profile : UserProfile) (user : Nat) (amount : ℚ)
    (method : String) (details : String) : Except PolicyError WithdrawalRequest :=
  if profile.can_withdraw then
    .ok (mkWithdrawal user amount method details none)
  else
    .error { reason := profile.withdrawal_disabled_reason }

/-- The context dictionary `views.withdraw_view` builds for the template:
the gate result, the stored reason, the balance and the recent
withdrawals. -/
structure WithdrawPageContext where
  withdrawal_disabled : Bool
  disabled_reason : Option String
  amount : ℚ
  recent_withdrawals : List WithdrawalRequest
deriving Repr, DecidableEq

/-- `views.withdraw_view`. The local name `user_profile` is read when the
context is built, but the statement binding it (the profile
fetch-or-create) is commented out in the source, so on every actual
request the name is unbound and the view raises `NameError`; the
`user_profile` parameter models the (absent) binding and every actual
request instantiates it with `none`. The balance defaults to `0.00`
when the user has no `Amount` row, and the page shows the five most
recent withdrawals. -/
def withdraw_view (user_profile : Option UserProfile) (amount_obj : Option ℚ)
    (recent : List WithdrawalRequest) : Except Unit WithdrawPageContext :=
  let user_balance := match amount_obj with | some a => a | none => 0
  match user_profile with
  | none => .error ()
  | some up =>
      .ok { withdrawal_disabled := !up.withdrawal_enabled
            disabled_reason := up.withdrawal_disabled_reason
            amount := user_balance
            recent_withdrawals := recent.take 5 }

/-! ## Concrete example rows used by witnesses and counterexamples -/

/-- A freshly created pending request. -/
def wPendEx : WithdrawalRequest := mkWithdrawal 1 50 "bank" "acct-1" none

/-- A request in `processing`. -/
def wProcEx : WithdrawalRequest :=
  { mkWithdrawal 2 75 "paypal" "acct-2" none with status := WStatus.processing }

/-- A request completed through `mark_as_completed` at instant 100 by
admin 9 with transaction id `tx-9`. -/
def wCompEx : WithdrawalRequest :=
  (mkWithdrawal 3 20 "crypto" "acct-3" none).mark_as_completed 100 (some 9) (some "tx-9")

/-- The spec §8 example plan: `min=100, max=None, rate=1.8, duration=30,
principal_return=true`. -/
def planEx : InvestmentPlan :=
  { title := some "Starter", minimum_deposit := some 100,
    daily_earnings_percentage := some (18 / 10), investment_duration_days := some 30,
    deposit_return := true }

/-- The spec §8 example investment: `amount=500` against `planEx`. -/
def invEx : Investment :=
  { user := some 1, investment_plan := some planEx, amount := some 500 }

/-- A legacy-shaped investment whose resolved plan has a null daily rate. -/
def invNullRateEx : Investment :=
  { user := some 1,
    investment_plan := some { title := some "Legacy", investment_duration_days := some 30 },
    amount := some 500 }

/-- A profile with the withdrawal gate disabled and a stored reason. -/
def profileDisabledEx : UserProfile :=
  { user := some 7, withdrawal_enabled := false,
    withdrawal_disabled_reason := some "fraud review" }

/-! ## Helper lemmas -/

theorem can_be_cancelled_iff (w : WithdrawalRequest) :
    w.can_be_cancelled = true ↔
      (w.status = WStatus.pending ∨ w.status = WStatus.processing) := by
  cases h : w.status <;> simp [WithdrawalRequest.can_be_cancelled, h]

theorem inPendingOrProcessing_iff (w : WithdrawalRequest) :
    inPendingOrProcessing w = true ↔
      (w.status = WStatus.pending ∨ w.status = WStatus.processing) := by
  cases h : w.status <;> simp [inPendingOrProcessing, h]

/-! ## C2 -/

/-- C2: the owner's cancel is refused, with the request and the balance
fully unchanged, exactly when the status is terminal
(`completed`/`rejected`/`cancelled`); it succeeds, writing only
`status := cancelled` and mutating no balance, exactly when the prior
status is `pending` or `processing`. -/
theorem C2_cancel_characterization (w : WithdrawalRequest) (bal : ℚ) :
    ((w.status = WStatus.completed ∨ w.status = WStatus.rejected ∨
        w.status = WStatus.cancelled) →
      cancel_withdrawal w bal = (w, bal, false)) ∧
    ((w.status = WStatus.pending ∨ w.status = WStatus.processing) →
      cancel_withdrawal w bal = ({ w with status := WStatus.cancelled }, bal, true)) := by
  constructor
  · intro h
    have hc : w.can_be_cancelled = false := by
      rcases h with h | h | h <;> simp [WithdrawalRequest.can_be_cancelled, h]
    simp [cancel_withdrawal, hc]
  · intro h
    have hc : w.can_be_cancelled = true := (can_be_cancelled_iff w).mpr h
    simp [cancel_withdrawal, hc]

/-- Witness for C2 at a concrete completed request. -/
theorem C2_cancel_characterization_witness :
    cancel_withdrawal wCompEx 10 = (wCompEx, 10, false) :=
  (C2_cancel_characterization wCompEx 10).1 (Or.inl rfl)

/-! ## C4 -/

/-- C4 (creation modelled from the spec, gate from the source): creation
with `withdrawal_enabled = false` is rejected by a policy error carrying
the profile's stored reason and yields no request; with the gate enabled
it returns a fresh request with status `pending` capturing amount,
method and account details. -/
theorem C4_create_gate (profile : UserProfile) (u : Nat) (a : ℚ) (m det : String) :
    (profile.withdrawal_enabled = false →
      create_withdrawal profile u a m det =
        Except.error { reason := profile.withdrawal_disabled_reason }) ∧
    (profile.withdrawal_enabled = true →
      create_withdrawal profile u a m det = Except.ok (mkWithdrawal u a m det none) ∧
      (mkWithdrawal u a m det none).status = WStatus.pending ∧
      (mkWithdrawal u a m det none).amount = a ∧
      (mkWithdrawal u a m det none).withdrawal_method = m ∧
      (mkWithdrawal u a m det none).account_details = det ∧
      (mkWithdrawal u a m det none).processed_at = none) := by
  constructor <;> intro h <;>
    simp [create_withdrawal, UserProfile.can_withdraw, h, mkWithdrawal]

/-- Witness for C4 at a concrete disabled profile. -/
theorem C4_create_gate_witness :
    create_withdrawal profileDisabledEx 7 40 "bank" "acct-7" =
      Except.error { reason := some "fraud review" } :=
  (C4_create_gate profileDisabledEx 7 40 "bank" "acct-7").1 rfl

/-! ## C5 -/

/-- C5 counterexample: on an already-completed request
(completed at instant 100 by admin 9), a second `mark_as_completed` at
instant 200 re-stamps `processed_at` and overwrites `processed_by` — it
is not a no-op refusal. -/
theorem C5_counterexample :
    wCompEx.status = WStatus.completed ∧
    wCompEx.processed_at = some 100 ∧
    wCompEx.processed_by = some 9 ∧
    (wCompEx.mark_as_completed 200 none none).processed_at = some 200 ∧
    (wCompEx.mark_as_completed 200 none none).processed_by = none :=
  ⟨rfl, rfl, rfl, rfl, rfl⟩

/-- C5 amended: `mark_as_completed` on an already-completed request is
unguarded: the status stays `completed`, but `processed_at` is re-stamped
to the new invocation instant and `processed_by` is overwritten with the
new argument; `transaction_id` is overwritten exactly when a non-empty
transaction id is supplied. -/
theorem C5_amended (w : WithdrawalRequest) (now : Nat) (pby : Option Nat)
    (tid : Option String) (_h : w.status = WStatus.completed) :
    (w.mark_as_completed now pby tid).status = WStatus.completed ∧
    (w.mark_as_completed now pby tid).processed_at = some now ∧
    (w.mark_as_completed now pby tid).processed_by = pby ∧
    (tid = none → (w.mark_as_completed now pby tid).transaction_id = w.transaction_id) ∧
    (tid = some "" → (w.mark_as_completed now pby tid).transaction_id = w.transaction_id) ∧
    (∀ s : String, tid = some s → s ≠ "" →
      (w.mark_as_completed now pby tid).transaction_id = some s) := by
  refine ⟨rfl, rfl, rfl, ?_, ?_, ?_⟩
  · intro ht; simp [WithdrawalRequest.mark_as_completed, ht]
  · intro ht; simp [WithdrawalRequest.mark_as_completed, ht]
  · intro s ht hs; simp [WithdrawalRequest.mark_as_completed, ht, hs]

/-- Witness for C5's amended theorem at the concrete completed request. -/
theorem C5_amended_witness :
    (wCompEx.mark_as_completed 200 none none).processed_at = some 200 :=
  (C5_amended wCompEx 200 none none rfl).2.1

/-! ## C10 -/

/-- C10: on every actual request the withdrawal page view evaluates with
the `user_profile` name unbound (its fetch is commented out) and raises
`NameError` instead of completing; had the binding been present, the
context would surface the gate result and the stored reason. -/
theorem C10_view_crashes (amount_obj : Option ℚ) (recent : List WithdrawalRequest) :
    withdraw_view none amount_obj recent = Except.error () ∧
    (∀ up : UserProfile, withdraw_view (some up) amount_obj recent =
      Except.ok { withdrawal_disabled := !up.withdrawal_enabled,
                  disabled_reason := up.withdrawal_disabled_reason,
                  amount := amount_obj.getD 0,
                  recent_withdrawals := recent.take 5 }) := by
  constructor
  · rfl
  · intro up
    cases amount_obj <;> rfl

/-! ## C8 -/

/-- C8: a plan's `estimated_total_return` equals
`(r/100 * m) * d + (m if principal-return else 0)` when rate, minimum
deposit and duration are all present, is `None` when any of them is
absent, and evaluates to `154` on the spec's example plan
(`min=100, rate=1.8, duration=30`, principal return on). -/
theorem C8_estimated_total_return (p : InvestmentPlan) :
    (∀ (r m : ℚ) (d : ℕ), p.daily_earnings_percentage = some r →
      p.minimum_deposit = some m → p.investment_duration_days = some d →
      p.estimated_total_return =
        some ((r / 100 * m) * (d : ℚ) + (if p.deposit_return then m else 0))) ∧
    ((p.daily_earnings_percentage = none ∨ p.minimum_deposit = none ∨
        p.investment_duration_days = none) →
      p.estimated_total_return = none) ∧
    planEx.estimated_total_return = some 154 := by
  refine ⟨?_, ?_, by norm_num [InvestmentPlan.estimated_total_return, planEx]⟩
  · intro r m d hr hm hd
    rcases hdr : p.deposit_return <;>
      simp [InvestmentPlan.estimated_total_return, hr, hm, hd, hdr]
  · intro h
    rcases hr : p.daily_earnings_percentage with _ | r <;>
    rcases hm : p.minimum_deposit with _ | m <;>
    rcases hd : p.investment_duration_days with _ | d <;>
      simp [InvestmentPlan.estimated_total_return, hr, hm, hd] at h ⊢

/-- Witness for C8 at the spec's example plan. -/
theorem C8_estimated_total_return_witness :
    planEx.estimated_total_return =
      some (((18 : ℚ) / 10 / 100 * 100) * ((30 : ℕ) : ℚ) +
        (if planEx.deposit_return then (100 : ℚ) else 0)) :=
  (C8_estimated_total_return planEx).1 (18 / 10) 100 30 rfl rfl rfl

/-! ## C6 -/

/-- The closed-form values of the three earnings metrics for an
investment whose plan, amount, rate and duration are all present. -/
theorem investment_metrics_formulas (inv : Investment) (plan : InvestmentPlan)
    (a r : ℚ) (d : ℕ)
    (hp : inv.investment_plan = some plan) (ha : inv.amount = some a)
    (hr : plan.daily_earnings_percentage = some r)
    (hd : plan.investment_duration_days = some d) :
    inv.daily_earnings = Except.ok (some (r / 100 * a)) ∧
    inv.expected_total_earnings = Except.ok (some (r / 100 * a * (d : ℚ))) ∧
    inv.expected_total_return =
      Except.ok (some (if plan.deposit_return then r / 100 * a * (d : ℚ) + a
                       else r / 100 * a * (d : ℚ))) := by
  have h1 : inv.daily_earnings = Except.ok (some (r / 100 * a)) := by
    simp [Investment.daily_earnings, hp, ha, hr]
  have h2 : inv.expected_total_earnings = Except.ok (some (r / 100 * a * (d : ℚ))) := by
    simp [Investment.expected_total_earnings, h1, hp, hd]
  have h3 : inv.expected_total_return =
      Except.ok (some (if plan.deposit_return then r / 100 * a * (d : ℚ) + a
                       else r / 100 * a * (d : ℚ))) := by
    rcases hdr : plan.deposit_return <;>
      simp [Investment.expected_total_return, h2, hp, ha, hdr]
  exact ⟨h1, h2, h3⟩

/-- C6: for an investment with a resolved plan, a present amount `a`,
rate `r` and duration `d`, `daily_earnings = (r/100)*a`,
`expected_total_earnings = (r/100)*a*d`, and `expected_total_return`
adds `a` back exactly when the plan's principal-return flag is set; on
the spec's example (`a=500`, `r=1.8`, `d=30`, principal return on) the
values are `9`, `270` and `770`. -/
theorem C6_investment_metrics (inv : Investment) (plan : InvestmentPlan)
    (a r : ℚ) (d : ℕ)
    (hp : inv.investment_plan = some plan) (ha : inv.amount = some a)
    (hr : plan.daily_earnings_percentage = some r)
    (hd : plan.investment_duration_days = some d) :
    inv.daily_earnings = Except.ok (some (r / 100 * a)) ∧
    inv.expected_total_earnings = Except.ok (some (r / 100 * a * (d : ℚ))) ∧
    inv.expected_total_return =
      Except.ok (some (if plan.deposit_return then r / 100 * a * (d : ℚ) + a
                       else r / 100 * a * (d : ℚ))) ∧
    invEx.daily_earnings = Except.ok (some 9) ∧
    invEx.expected_total_earnings = Except.ok (some 270) ∧
    invEx.expected_total_return = Except.ok (some 770) := by
  obtain ⟨h1, h2, h3⟩ := investment_metrics_formulas inv plan a r d hp ha hr hd
  obtain ⟨g1, g2, g3⟩ :=
    investment_metrics_formulas invEx planEx 500 (18 / 10) 30 rfl rfl rfl rfl
  refine ⟨h1, h2, h3, ?_, ?_, ?_⟩
  · rw [g1]; norm_num
  · rw [g2]; norm_num
  · rw [g3]; norm_num [planEx]

/-- Witness for C6 at the spec's example investment. -/
theorem C6_investment_metrics_witness :
    invEx.daily_earnings = Except.ok (some 9) :=
  (C6_investment_metrics invEx planEx 500 (18 / 10) 30 rfl rfl rfl rfl).2.2.2.1

/-! ## C7 -/

/-- C7: with a resolved plan of positive duration `d` and elapsed whole
days `e`: a `COMPLETED` investment reports `0` days remaining and `100`
percent progress; otherwise `days_remaining = max(0, d - e)` and
`progress_percentage = min(100, 100 * e / d)`; consequently
`days_remaining` is non-increasing and `progress_percentage`
non-decreasing in `e`, and both are clamped (to `0` resp. `100`) once
`e` reaches `d`. -/
theorem C7_progress_days (inv : Investment) (plan : InvestmentPlan) (d : ℕ)
    (hp : inv.investment_plan = some plan)
    (hd : plan.investment_duration_days = some d) (hdpos : 0 < d) :
    (inv.status = some "COMPLETED" →
      ∀ e : ℤ, inv.days_remaining e = Except.ok (some 0) ∧
        inv.progress_percentage e = Except.ok (some 100)) ∧
    (inv.status ≠ some "COMPLETED" →
      (∀ e : ℤ, inv.days_remaining e = Except.ok (some (max 0 ((d : ℤ) - e))) ∧
        inv.progress_percentage e =
          Except.ok (some (min 100 (((e : ℚ) / (d : ℚ)) * 100)))) ∧
      (∀ e e2 : ℤ, e ≤ e2 → ∀ v v2 : ℤ,
        inv.days_remaining e = Except.ok (some v) →
        inv.days_remaining e2 = Except.ok (some v2) → v2 ≤ v) ∧
      (∀ e e2 : ℤ, e ≤ e2 → ∀ q q2 : ℚ,
        inv.progress_percentage e = Except.ok (some q) →
        inv.progress_percentage e2 = Except.ok (some q2) → q ≤ q2) ∧
      (∀ e : ℤ, (d : ℤ) ≤ e →
        inv.days_remaining e = Except.ok (some 0) ∧
        inv.progress_percentage e = Except.ok (some 100))) := by
  obtain ⟨k, rfl⟩ : ∃ k, d = k + 1 := ⟨d - 1, by omega⟩
  have hd0 : (0 : ℚ) < ((k + 1 : ℕ) : ℚ) := by positivity
  constructor
  · intro hs e
    constructor <;> simp [Investment.days_remaining, Investment.progress_percentage, hp, hs]
  · intro hs
    have heq : ∀ e : ℤ,
        inv.days_remaining e = Except.ok (some (max 0 (((k + 1 : ℕ) : ℤ) - e))) ∧
        inv.progress_percentage e =
          Except.ok (some (min 100 (((e : ℚ) / ((k + 1 : ℕ) : ℚ)) * 100))) := by
      intro e
      constructor <;>
        simp [Investment.days_remaining, Investment.progress_percentage, hp, hd, hs]
    refine ⟨heq, ?_, ?_, ?_⟩
    · intro e e2 hee2 v v2 hv hv2
      rw [(heq e).1] at hv
      rw [(heq e2).1] at hv2
      simp only [Except.ok.injEq, Option.some.injEq] at hv hv2
      subst hv
      subst hv2
      exact max_le_max le_rfl (by omega)
    · intro e e2 hee2 q q2 hq hq2
      rw [(heq e).2] at hq
      rw [(heq e2).2] at hq2
      simp only [Except.ok.injEq, Option.some.injEq] at hq hq2
      subst hq
      subst hq2
      have hcast : (e : ℚ) ≤ (e2 : ℚ) := by exact_mod_cast hee2
      have hmul : (e : ℚ) / ((k + 1 : ℕ) : ℚ) * 100 ≤
          (e2 : ℚ) / ((k + 1 : ℕ) : ℚ) * 100 := by gcongr
      exact min_le_min le_rfl hmul
    · intro e hde
      refine ⟨?_, ?_⟩
      · rw [(heq e).1]
        have : max 0 (((k + 1 : ℕ) : ℤ) - e) = 0 := max_eq_left (by omega)
        rw [this]
      · rw [(heq e).2]
        have hone : (1 : ℚ) ≤ (e : ℚ) / ((k + 1 : ℕ) : ℚ) := by
          rw [le_div_iff₀ hd0, one_mul]
          exact_mod_cast hde
        have h100 : (100 : ℚ) ≤ (e : ℚ) / ((k + 1 : ℕ) : ℚ) * 100 := by
          nlinarith
        rw [min_eq_left h100]

/-- Witness for C7: on the spec's example investment (pending, duration
30), 40 elapsed days clamp the metrics to 0 remaining and 100 percent. -/
theorem C7_progress_days_witness :
    invEx.days_remaining 40 = Except.ok (some 0) ∧
    invEx.progress_percentage 40 = Except.ok (some 100) :=
  ((C7_progress_days invEx planEx 30 rfl rfl (by norm_num)).2 (by decide)).2.2.2
    40 (by norm_num)

/-! ## C9 -/

/-- An investment carrying only the legacy free-text plan name, with no
resolved structured plan. -/
def invLegacyEx : Investment :=
  { user := some 4, amount := some 250, plan := some "Gold Plan" }

/-- C9 counterexample: an investment with a resolved plan whose daily
rate column is null makes `daily_earnings` raise (`None / 100`,
`TypeError`) instead of returning the null sentinel. -/
theorem C9_counterexample :
    invNullRateEx.investment_plan.isSome = true ∧
    invNullRateEx.amount = some 500 ∧
    invNullRateEx.daily_earnings = Except.error () :=
  ⟨rfl, rfl, rfl⟩

/-- C9 amended: every derived metric returns the null sentinel when no
plan is resolved, and the three earnings metrics return it when the
amount is null; but with a resolved plan, a null daily rate makes
`daily_earnings` raise, a null duration makes `days_remaining` raise
(when not `COMPLETED`) and makes `expected_total_earnings` and
`expected_total_return` raise (when the rate and the amount are
present), and a zero duration makes `progress_percentage` raise —
absence of those inputs is a crash, not a sentinel. -/
theorem C9_amended (inv : Investment) (e : ℤ) :
    (inv.investment_plan = none →
      inv.daily_earnings = Except.ok none ∧
      inv.expected_total_earnings = Except.ok none ∧
      inv.expected_total_return = Except.ok none ∧
      inv.days_remaining e = Except.ok none ∧
      inv.progress_percentage e = Except.ok none) ∧
    (∀ plan : InvestmentPlan, inv.investment_plan = some plan → inv.amount = none →
      inv.daily_earnings = Except.ok none ∧
      inv.expected_total_earnings = Except.ok none ∧
      inv.expected_total_return = Except.ok none) ∧
    (∀ plan : InvestmentPlan, inv.investment_plan = some plan →
      plan.daily_earnings_percentage = none → ∀ a : ℚ, inv.amount = some a →
      inv.daily_earnings = Except.error ()) ∧
    (∀ plan : InvestmentPlan, inv.investment_plan = some plan →
      plan.investment_duration_days = none → inv.status ≠ some "COMPLETED" →
      inv.days_remaining e = Except.error ()) ∧
    (∀ plan : InvestmentPlan, inv.investment_plan = some plan →
      plan.investment_duration_days = none →
      ∀ (a r : ℚ), inv.amount = some a → plan.daily_earnings_percentage = some r →
      inv.expected_total_earnings = Except.error () ∧
      inv.expected_total_return = Except.error ()) ∧
    (∀ plan : InvestmentPlan, inv.investment_plan = some plan →
      plan.investment_duration_days = some 0 → inv.status ≠ some "COMPLETED" →
      inv.progress_percentage e = Except.error ()) := by
  refine ⟨?_, ?_, ?_, ?_, ?_, ?_⟩
  · intro hp
    have h1 : inv.daily_earnings = Except.ok none := by
      simp [Investment.daily_earnings, hp]
    have h2 : inv.expected_total_earnings = Except.ok none := by
      simp [Investment.expected_total_earnings, h1]
    have h3 : inv.expected_total_return = Except.ok none := by
      simp [Investment.expected_total_return, h2]
    exact ⟨h1, h2, h3, by simp [Investment.days_remaining, hp],
      by simp [Investment.progress_percentage, hp]⟩
  · intro plan hp ha
    have h1 : inv.daily_earnings = Except.ok none := by
      simp [Investment.daily_earnings, hp, ha]
    have h2 : inv.expected_total_earnings = Except.ok none := by
      simp [Investment.expected_total_earnings, h1]
    have h3 : inv.expected_total_return = Except.ok none := by
      simp [Investment.expected_total_return, h2]
    exact ⟨h1, h2, h3⟩
  · intro plan hp hr a ha
    simp [Investment.daily_earnings, hp, ha, hr]
  · intro plan hp hd hs
    simp [Investment.days_remaining, hp, hd, hs]
  · intro plan hp hd a r ha hr
    have h1 : inv.daily_earnings = Except.ok (some (r / 100 * a)) := by
      simp [Investment.daily_earnings, hp, ha, hr]
    have h2 : inv.expected_total_earnings = Except.error () := by
      simp [Investment.expected_total_earnings, h1, hp, hd]
    have h3 : inv.expected_total_return = Except.error () := by
      simp [Investment.expected_total_return, h2]
    exact ⟨h2, h3⟩
  · intro plan hp hd hs
    simp [Investment.progress_percentage, hp, hd, hs]

/-- Witness for C9's amended theorem at a legacy investment with no
resolved plan. -/
theorem C9_amended_witness :
    invLegacyEx.daily_earnings = Except.ok none ∧
    invLegacyEx.expected_total_earnings = Except.ok none ∧
    invLegacyEx.expected_total_return = Except.ok none ∧
    invLegacyEx.days_remaining 3 = Except.ok none ∧
    invLegacyEx.progress_percentage 3 = Except.ok none :=
  (C9_amended invLegacyEx 3).1 rfl

/-! ## C1 -/

/-- Every single workflow step preserves the direction of the invariant
that holds: a stamped `processed_at` implies `completed`/`rejected`. -/
theorem applyOp_processedImpliesTerminal (op : WOp) (w : WithdrawalRequest)
    (h : processedImpliesTerminal w) :
    processedImpliesTerminal (applyOp op w) := by
  unfold processedImpliesTerminal at h ⊢
  cases op with
  | cancel =>
      cases hs : w.status <;>
        rw [hs] at h <;>
        simp only [reduceCtorEq, or_self, imp_false, Bool.not_eq_true] at h <;>
        simp [applyOp, cancel_withdrawal, WithdrawalRequest.can_be_cancelled, hs, h]
  | markCompleted now pby tid =>
      simp [applyOp, WithdrawalRequest.mark_as_completed]
  | markRejected now r pby =>
      simp [applyOp, WithdrawalRequest.mark_as_rejected]
  | bulkApprove =>
      cases hs : w.status <;>
        rw [hs] at h <;>
        simp [applyOp, approveRow, inPendingOrProcessing, hs] <;>
        simpa [hs] using h
  | bulkReject =>
      cases hs : w.status <;>
        rw [hs] at h <;>
        simp [applyOp, rejectRow, inPendingOrProcessing, hs] <;>
        simpa [hs] using h

/-- A non-bulk workflow step preserves the full claimed iff-invariant. -/
theorem applyOp_processedIffTerminal (op : WOp) (w : WithdrawalRequest)
    (hnb1 : op ≠ WOp.bulkApprove) (hnb2 : op ≠ WOp.bulkReject)
    (h : processedIffTerminal w) :
    processedIffTerminal (applyOp op w) := by
  unfold processedIffTerminal at h ⊢
  cases op with
  | cancel =>
      cases hs : w.status <;>
        rw [hs] at h <;>
        simp only [reduceCtorEq, or_self, iff_false, or_true, true_or, iff_true,
          Bool.not_eq_true] at h <;>
        simp [applyOp, cancel_withdrawal, WithdrawalRequest.can_be_cancelled, hs, h]
  | markCompleted now pby tid =>
      simp [applyOp, WithdrawalRequest.mark_as_completed]
  | markRejected now r pby =>
      simp [applyOp, WithdrawalRequest.mark_as_rejected]
  | bulkApprove => exact absurd rfl hnb1
  | bulkReject => exact absurd rfl hnb2

/-- The one-directional invariant holds along every operation sequence
from a state satisfying it. -/
theorem runOps_processedImpliesTerminal (ops : List WOp) (w : WithdrawalRequest)
    (h : processedImpliesTerminal w) :
    processedImpliesTerminal (runOps ops w) := by
  induction ops generalizing w with
  | nil => exact h
  | cons op rest ih => exact ih (applyOp op w) (applyOp_processedImpliesTerminal op w h)

/-- The iff-invariant holds along every bulk-free operation sequence
from a state satisfying it. -/
theorem runOps_processedIffTerminal (ops : List WOp) :
    ∀ w : WithdrawalRequest,
      (∀ op ∈ ops, op ≠ WOp.bulkApprove ∧ op ≠ WOp.bulkReject) →
      processedIffTerminal w → processedIffTerminal (runOps ops w) := by
  induction ops with
  | nil => exact fun w _ h => h
  | cons op rest ih =>
      intro w hnb h
      have hop := hnb op (List.mem_cons_self op rest)
      exact ih (applyOp op w) (fun o ho => hnb o (List.mem_cons_of_mem op ho))
        (applyOp_processedIffTerminal op w hop.1 hop.2 h)

/-- A fresh request satisfies the iff-invariant. -/
theorem mkWithdrawal_processedIffTerminal (u : Nat) (a : ℚ) (m det : String)
    (note : Option String) :
    processedIffTerminal (mkWithdrawal u a m det note) := by
  simp [processedIffTerminal, mkWithdrawal]

/-- C1 counterexample: a freshly created pending request put through the
admin bulk approve action ends with status `completed` and `processed_at`
still null, so the claimed iff-invariant fails after this operation
sequence. -/
theorem C1_counterexample :
    (runOps [WOp.bulkApprove] wPendEx).status = WStatus.completed ∧
    (runOps [WOp.bulkApprove] wPendEx).processed_at = none ∧
    ¬ processedIffTerminal (runOps [WOp.bulkApprove] wPendEx) := by
  refine ⟨rfl, rfl, fun h => ?_⟩
  have h2 := h.mpr (Or.inl rfl)
  rw [show (runOps [WOp.bulkApprove] wPendEx).processed_at = none from rfl] at h2
  exact Bool.noConfusion h2

/-- C1 amended: after any sequence of workflow operations from creation,
a non-null `processed_at` implies status `completed` or `rejected`
(and cancellation never writes `processed_at`); the converse direction
fails only through the bulk admin actions, which set the status without
stamping, so the claimed iff-invariant does hold for every bulk-free
operation sequence. -/
theorem C1_amended (ops : List WOp) (u : Nat) (a : ℚ) (m det : String)
    (note : Option String)
    (hnb : ∀ op ∈ ops, op ≠ WOp.bulkApprove ∧ op ≠ WOp.bulkReject) :
    processedIffTerminal (runOps ops (mkWithdrawal u a m det note)) ∧
    (∀ ops2 : List WOp,
      processedImpliesTerminal (runOps ops2 (mkWithdrawal u a m det note))) ∧
    (∀ w : WithdrawalRequest, (applyOp WOp.cancel w).processed_at = w.processed_at) := by
  refine ⟨?_, ?_, ?_⟩
  · exact runOps_processedIffTerminal ops (mkWithdrawal u a m det note) hnb
      (mkWithdrawal_processedIffTerminal u a m det note)
  · intro ops2
    refine runOps_processedImpliesTerminal ops2 (mkWithdrawal u a m det note) ?_
    intro hsome
    simp [mkWithdrawal] at hsome
  · intro w
    cases hc : w.can_be_cancelled <;> simp [applyOp, cancel_withdrawal, hc]

/-- Witness for C1's amended theorem: a create-then-single-approve
sequence keeps the iff-invariant. -/
theorem C1_amended_witness :
    processedIffTerminal
      (runOps [WOp.markCompleted 5 (some 2) (some "tx-1")]
        (mkWithdrawal 1 50 "bank" "acct-1" none)) :=
  (C1_amended [WOp.markCompleted 5 (some 2) (some "tx-1")] 1 50 "bank" "acct-1" none
    (by decide)).1

/-! ## C3 -/

/-- In the zip of a queryset with its bulk-updated image, every pair is
(input row, updated input row). -/
theorem zip_map_snd (f : WithdrawalRequest → WithdrawalRequest)
    (qs : List WithdrawalRequest) :
    ∀ p ∈ qs.zip (qs.map f), p.2 = f p.1 := by
  induction qs with
  | nil => intro p hp; simp at hp
  | cons w rest ih =>
      intro p hp
      simp only [List.map_cons, List.zip_cons_cons, List.mem_cons] at hp
      rcases hp with hp | hp
      · rw [hp]
      · exact ih p hp

/-- The row count reported by a bulk update equals the number of rows
whose status actually changed, provided the update changes the status of
exactly the filtered rows. -/
theorem filter_length_zip_map (f : WithdrawalRequest → WithdrawalRequest)
    (hf : ∀ w : WithdrawalRequest,
      decide (w.status ≠ (f w).status) = inPendingOrProcessing w)
    (qs : List WithdrawalRequest) :
    ((qs.zip (qs.map f)).filter
        (fun p => decide (p.1.status ≠ p.2.status))).length =
      (qs.filter inPendingOrProcessing).length := by
  induction qs with
  | nil => rfl
  | cons w rest ih =>
      simp only [List.map_cons, List.zip_cons_cons, List.filter_cons]
      rw [hf w]
      cases hc : inPendingOrProcessing w
      · simpa using ih
      · simpa using ih

/-- `approveRow` changes the status of exactly the filtered rows. -/
theorem approveRow_status_changed (w : WithdrawalRequest) :
    decide (w.status ≠ (approveRow w).status) = inPendingOrProcessing w := by
  cases hs : w.status <;> simp [approveRow, inPendingOrProcessing, hs]

/-- `rejectRow` changes the status of exactly the filtered rows. -/
theorem rejectRow_status_changed (w : WithdrawalRequest) :
    decide (w.status ≠ (rejectRow w).status) = inPendingOrProcessing w := by
  cases hs : w.status <;> simp [rejectRow, inPendingOrProcessing, hs]

/-- C3 counterexample: bulk-approving a singleton pending request
reports count 1 and transitions it to `completed`, but stamps neither
`processed_at` nor `processed_by` (both stay null), contradicting the
claimed stamping/recording on each transitioned request. -/
theorem C3_counterexample :
    (approve_withdrawals [wPendEx]).2 = 1 ∧
    (approve_withdrawals [wPendEx]).1.map WithdrawalRequest.status = [WStatus.completed] ∧
    (approve_withdrawals [wPendEx]).1.map WithdrawalRequest.processed_at = [none] ∧
    (approve_withdrawals [wPendEx]).1.map WithdrawalRequest.processed_by = [none] :=
  ⟨rfl, rfl, rfl, rfl⟩

/-- C3 amended: over any selected set, bulk approve transitions to
`completed` exactly the rows whose status is `pending` or `processing`,
leaves every other selected row unchanged, writes nothing but the status
column on the transitioned rows (in particular no `processed_at` stamp
and no processor identity), and reports a count equal to the number of
rows whose status changed; bulk reject behaves symmetrically with
`rejected`, recording no rejection reason. -/
theorem C3_amended (qs : List WithdrawalRequest) :
    (∀ p ∈ qs.zip (approve_withdrawals qs).1,
      ((p.1.status = WStatus.pending ∨ p.1.status = WStatus.processing) →
        p.2 = { p.1 with status := WStatus.completed }) ∧
      (p.1.status ≠ WStatus.pending → p.1.status ≠ WStatus.processing → p.2 = p.1)) ∧
    (approve_withdrawals qs).2 =
      ((qs.zip (approve_withdrawals qs).1).filter
        (fun p => decide (p.1.status ≠ p.2.status))).length ∧
    (∀ p ∈ qs.zip (reject_withdrawals qs).1,
      ((p.1.status = WStatus.pending ∨ p.1.status = WStatus.processing) →
        p.2 = { p.1 with status := WStatus.rejected }) ∧
      (p.1.status ≠ WStatus.pending → p.1.status ≠ WStatus.processing → p.2 = p.1)) ∧
    (reject_withdrawals qs).2 =
      ((qs.zip (reject_withdrawals qs).1).filter
        (fun p => decide (p.1.status ≠ p.2.status))).length := by
  refine ⟨?_, ?_, ?_, ?_⟩
  · intro p hp
    have h2 := zip_map_snd approveRow qs p hp
    constructor
    · intro h
      rw [h2, approveRow, if_pos ((inPendingOrProcessing_iff p.1).mpr h)]
    · intro h1 h2s
      have hip : inPendingOrProcessing p.1 = false := by
        cases hs : p.1.status
        · exact absurd hs h1
        · exact absurd hs h2s
        all_goals simp [inPendingOrProcessing, hs]
      rw [h2, approveRow, hip]
      simp
  · exact (filter_length_zip_map approveRow approveRow_status_changed qs).symm
  · intro p hp
    have h2 := zip_map_snd rejectRow qs p hp
    constructor
    · intro h
      rw [h2, rejectRow, if_pos ((inPendingOrProcessing_iff p.1).mpr h)]
    · intro h1 h2s
      have hip : inPendingOrProcessing p.1 = false := by
        cases hs : p.1.status
        · exact absurd hs h1
        · exact absurd hs h2s
        all_goals simp [inPendingOrProcessing, hs]
      rw [h2, rejectRow, hip]
      simp
  · exact (filter_length_zip_map rejectRow rejectRow_status_changed qs).symm

/-- Witness for C3's amended theorem on a concrete mixed selection:
the pending head row of `[wPendEx, wCompEx]` is transitioned with only
its status column written. -/
theorem C3_amended_witness :
    (wPendEx, approveRow wPendEx).2 =
      { (wPendEx, approveRow wPendEx).1 with status := WStatus.completed } :=
  (((C3_amended [wPendEx, wCompEx]).1 (wPendEx, approveRow wPendEx)
    (List.mem_cons_self _ _)).1 (Or.inl rfl))
